import Mathlib

/-!
Verification of the command-execution gate (`ExecTool` in
`src/tools/exec_tool.py`) of the polycode repository.

The Python code is shallowly embedded:

* strings are Lean `String`s and all text operations are modelled on the
  underlying character list, so every definition is executable;
* `shlex.split` (POSIX mode, `whitespace_split=True`, no comments) is
  modelled by an explicit lexer over the character list, returning `none`
  where the Python function raises `ValueError`;
* `pathlib.Path(x).name` is modelled lexically (`pathName`);
* filesystem path resolution (`Path.resolve`) and the subprocess launch
  are host effects: they are passed in as explicit parameters
  (`resolve`, `getCwd`, `run`).  A resolution result models the resolved
  absolute path as its list of components; `Except.error` models a raised
  exception.  `run` receives the effective (clamped) timeout and yields
  the outcome of `subprocess.run`;
* `ExecTool.execute` returns `Except String ExecResult`: `Except.ok`
  is a normal return, `Except.error` models a Python exception escaping
  the method (this can only happen at the working-directory resolution
  on line 313, which is outside the `try` block).
-/

/-- ASCII lower-casing of one character, modelling `str.lower` on the
    command/pattern texts used by the tool. -/
def lowerChar (c : Char) : Char :=
  if 'A' ≤ c && c ≤ 'Z' then Char.ofNat (c.toNat + 32) else c

/-- Model of `str.lower`. -/
def pyLower (s : String) : String := String.mk (s.data.map lowerChar)

/-- Does `sub` occur as a contiguous subsequence of `l`?  (Model of
    Python's `sub in s` on the character lists.) -/
def containsSeq : List Char → List Char → Bool
  | sub, [] => List.isPrefixOf sub []
  | sub, c :: rest => List.isPrefixOf sub (c :: rest) || containsSeq sub rest

/-- Model of Python's substring test `sub in s`. -/
def strContains (s sub : String) : Bool := containsSeq sub.data s.data

/-- Model of `str.startswith`. -/
def strStartsWith (s pre : String) : Bool := List.isPrefixOf pre.data s.data

/-- Model of Python string slicing `s[:n]`. -/
def pyTake (s : String) (n : Nat) : String := String.mk (s.data.take n)

/-- Path components separated by `/`, as produced by `str.split("/")`. -/
def pathParts : List Char → List Char → List String
  | [], cur => [String.mk cur.reverse]
  | c :: cs, cur =>
    if c == '/' then String.mk cur.reverse :: pathParts cs []
    else pathParts cs (c :: cur)

/-- Model of `pathlib.Path(s).name`: the last path component after
    dropping empty components and `.` components. -/
def pathName (s : String) : String :=
  (((pathParts s.data []).filter (fun p => !(p == "") && !(p == "."))).getLastD "")

/-- The whitespace characters of `shlex` (`shlex.whitespace`). -/
def isShlexWS (c : Char) : Bool :=
  c == ' ' || c == '\t' || c == '\r' || c == '\n'

/-- The whitespace characters of `str.split()` (no argument). -/
def pyIsSpace (c : Char) : Bool :=
  c == ' ' || c == '\t' || c == '\n' || c == '\r' || c == '\x0b' || c == '\x0c'

/-- Model of `str.split()`: split on whitespace runs, dropping empties. -/
def pySplitAux : List Char → List Char → List String
  | [], cur => if cur.isEmpty then [] else [String.mk cur.reverse]
  | c :: cs, cur =>
    if pyIsSpace c then
      if cur.isEmpty then pySplitAux cs []
      else String.mk cur.reverse :: pySplitAux cs []
    else pySplitAux cs (c :: cur)

/-- Model of `str.split()` on a string. -/
def pySplit (s : String) : List String := pySplitAux s.data []

/-- Lexer states of the POSIX `shlex` tokenizer: between tokens, inside a
    word, inside single quotes, inside double quotes, after a backslash in
    word context, after a backslash inside double quotes. -/
inductive LexState where
  | ws | word | sq | dq | escW | escD
deriving DecidableEq

/-- One-pass model of `shlex.split(s)` (POSIX mode, `whitespace_split=True`,
    comments disabled).  Arguments: remaining input, lexer state, current
    token (reversed), whether the current token saw a quote, and the
    accumulated tokens (reversed).  `none` models `ValueError` (unclosed
    quotation or trailing escape character). -/
def shlexCore : List Char → LexState → List Char → Bool → List String →
    Option (List String)
  | [], LexState.ws, _, _, acc => some acc.reverse
  | [], LexState.word, tok, quoted, acc =>
    if tok.isEmpty && !quoted then some acc.reverse
    else some (acc.reverse ++ [String.mk tok.reverse])
  | [], LexState.sq, _, _, _ => none
  | [], LexState.dq, _, _, _ => none
  | [], LexState.escW, _, _, _ => none
  | [], LexState.escD, _, _, _ => none
  | c :: cs, LexState.ws, tok, quoted, acc =>
    if isShlexWS c then shlexCore cs LexState.ws tok quoted acc
    else if c == '\x27' then shlexCore cs LexState.sq tok true acc
    else if c == '"' then shlexCore cs LexState.dq tok true acc
    else if c == '\\' then shlexCore cs LexState.escW tok quoted acc
    else shlexCore cs LexState.word (c :: tok) quoted acc
  | c :: cs, LexState.word, tok, quoted, acc =>
    if isShlexWS c then
      if tok.isEmpty && !quoted then shlexCore cs LexState.ws [] false acc
      else shlexCore cs LexState.ws [] false (String.mk tok.reverse :: acc)
    else if c == '\x27' then shlexCore cs LexState.sq tok true acc
    else if c == '"' then shlexCore cs LexState.dq tok true acc
    else if c == '\\' then shlexCore cs LexState.escW tok quoted acc
    else shlexCore cs LexState.word (c :: tok) quoted acc
  | c :: cs, LexState.sq, tok, quoted, acc =>
    if c == '\x27' then shlexCore cs LexState.word tok quoted acc
    else shlexCore cs LexState.sq (c :: tok) quoted acc
  | c :: cs, LexState.dq, tok, quoted, acc =>
    if c == '"' then shlexCore cs LexState.word tok quoted acc
    else if c == '\\' then shlexCore cs LexState.escD tok quoted acc
    else shlexCore cs LexState.dq (c :: tok) quoted acc
  | c :: cs, LexState.escW, tok, quoted, acc =>
    shlexCore cs LexState.word (c :: tok) quoted acc
  | c :: cs, LexState.escD, tok, quoted, acc =>
    if c == '\\' || c == '"' then shlexCore cs LexState.dq (c :: tok) quoted acc
    else shlexCore cs LexState.dq (c :: '\\' :: tok) quoted acc

/-- Model of `shlex.split`; `none` models a raised `ValueError`. -/
def shlexSplit (s : String) : Option (List String) :=
  shlexCore s.data LexState.ws [] false []

/-- Model of `ExecTool._parse_command`: shell-word splitting with a naive
    whitespace-splitting fallback when `shlex.split` raises. -/
def parseCommand (command : String) : String × List String :=
  match shlexSplit command with
  | some [] => ("", [])
  | some (p :: ps) => (p, p :: ps)
  | none => ((pySplit command).headD "", pySplit command)

/-- Result record returned by `ExecTool.execute`
    (`success, exit_code, stdout, stderr, duration_ms`). -/
structure ExecResult where
  success : Bool
  exit_code : Int
  stdout : String
  stderr : String
  duration_ms : Int
deriving DecidableEq, Repr

/-- Outcome of the host call `subprocess.run(command, shell=True, ...)`:
    normal completion (return code, captured stdout/stderr, elapsed
    milliseconds), `subprocess.TimeoutExpired`, or any other exception
    (with its text and the elapsed milliseconds at the failure point). -/
inductive RunOutcome where
  | completed (returncode : Int) (stdout stderr : String) (elapsedMs : Int)
  | timedOut
  | execError (msg : String) (elapsedMs : Int)
deriving DecidableEq

instance {ε α : Type} [DecidableEq ε] [DecidableEq α] : DecidableEq (Except ε α) := fun a b =>
  match a, b with
  | Except.error x, Except.error y =>
    if h : x = y then Decidable.isTrue (h ▸ rfl)
    else Decidable.isFalse (fun hh => h (Except.error.inj hh))
  | Except.ok x, Except.ok y =>
    if h : x = y then Decidable.isTrue (h ▸ rfl)
    else Decidable.isFalse (fun hh => h (Except.ok.inj hh))
  | Except.error _, Except.ok _ => Decidable.isFalse (fun hh => Except.noConfusion hh)
  | Except.ok _, Except.error _ => Decidable.isFalse (fun hh => Except.noConfusion hh)

/-- The policy state of the gate: the configurable fields of `ExecTool`. -/
structure ExecTool where
  blocked_patterns : List String
  allowed_commands : List String
  max_timeout : Int
  max_output_size : Nat
  allowed_directories : List String
  require_allowlist : Bool
deriving DecidableEq

/-- `DEFAULT_BLOCKED_PATTERNS` from the source. -/
def DEFAULT_BLOCKED_PATTERNS : List String :=
  ["sudo ", "su ", "rm -rf", "rm -fr", "rm -r /", "rm -r ~", "rm -R",
   "dd if=", "mkfs", ":()\x7b :|:& \x7d;:", "chmod -R 777", "chown -R",
   "> /dev/sd", "> /dev/hd", "mv /* ", "wget ", "curl ", "nc -l", "ncat ",
   "shutdown", "reboot", "init 0", "init 6", "halt", "poweroff",
   "systemctl stop", "service stop", "kill -9 -1", "killall", "pkill -9",
   "iptables", "ufw disable", "crontab -r", "userdel", "usermod",
   "passwd", "visudo"]

/-- `DEFAULT_ALLOWED_COMMANDS` from the source. -/
def DEFAULT_ALLOWED_COMMANDS : List String :=
  ["ls", "cat", "head", "tail", "grep", "find", "pwd", "echo", "wc",
   "sort", "uniq", "cut", "awk", "sed", "tr", "diff", "touch", "mkdir",
   "cp", "mv", "rm", "date", "which", "env", "printenv", "type", "uname",
   "whoami", "id", "git", "python", "python3", "pip", "pip3", "npm",
   "node", "yarn", "cargo", "rustc", "go", "make", "cmake", "gcc", "g++",
   "clang", "pytest", "jest", "mypy", "ruff", "black", "isort",
   "prettier", "eslint", "tsc", "uv", "poetry", "hatch", "rg", "fd",
   "bat", "exa", "tree", "jq", "yq", "http", "curlie", "sleep", "true",
   "false", "test", "[", "xargs", "parallel"]

/-- An `ExecTool` with all fields at their declared defaults. -/
def defaultTool : ExecTool :=
  { blocked_patterns := DEFAULT_BLOCKED_PATTERNS
    allowed_commands := DEFAULT_ALLOWED_COMMANDS
    max_timeout := 300
    max_output_size := 100000
    allowed_directories := []
    require_allowlist := true }

/-- Rejection message of `_check_blocked_patterns`. -/
def blockedMessage (p : String) : String :=
  "Blocked: command contains forbidden pattern \x27" ++ p ++ "\x27"

/-- Rejection message of `_check_allowed_command`. -/
def allowedMessage (n : String) : String :=
  "Blocked: \x27" ++ n ++ "\x27 is not in allowed commands"

/-- Rejection message of `_validate_directory` for a disallowed directory. -/
def notAllowedMessage (c : String) : String :=
  "Blocked: directory \x27" ++ c ++ "\x27 is not in allowed directories"

/-- Rejection message of `_validate_directory` for a resolution error. -/
def invalidMessage (e : String) : String := "Invalid directory: " ++ e

/-- Model of `ExecTool._check_blocked_patterns`: case-insensitive substring
    match of each blocked pattern against the whole raw command; the first
    match produces the rejection message. -/
def ExecTool.check_blocked_patterns (t : ExecTool) (command : String) :
    Option String :=
  Option.map blockedMessage
    (List.find? (fun p => strContains (pyLower command) (pyLower p))
      t.blocked_patterns)

/-- Model of `ExecTool._check_allowed_command`: when the allow-list is
    enforced, the basename of the binary must be an allowed command. -/
def ExecTool.check_allowed_command (t : ExecTool) (binary : String) :
    Option String :=
  if t.require_allowlist = false then none
  else if pathName binary ∈ t.allowed_commands then none
  else some (allowedMessage (pathName binary))

/-- Loop body of `ExecTool._validate_directory`: try each allowed
    directory; a resolution error anywhere raises (is caught as
    "Invalid directory"); if no resolved entry is a path prefix of the
    resolved cwd, reject. -/
def dirLoop (resolve : String → Except String (List String))
    (r : List String) (c : String) : List String → Option String
  | [] => some (notAllowedMessage c)
  | d :: ds =>
    match resolve d with
    | Except.error e => some (invalidMessage e)
    | Except.ok rd =>
      if List.isPrefixOf rd r then none else dirLoop resolve r c ds

/-- Model of `ExecTool._validate_directory`.  `resolve` models
    `Path(x).resolve()`, returning the components of the resolved absolute
    path or the text of a raised exception; `is_relative_to` on resolved
    paths is component-list prefix. -/
def ExecTool.validate_directory (t : ExecTool)
    (resolve : String → Except String (List String)) (cwd : Option String) :
    Option String :=
  match cwd with
  | none => none
  | some c =>
    if c = "" then none
    else if t.allowed_directories = [] then none
    else
      match resolve c with
      | Except.error e => some (invalidMessage e)
      | Except.ok r => dirLoop resolve r c t.allowed_directories

/-- `dangerous_flags` from `_validate_rm_command`. -/
def dangerous_flags : List String := ["-rf", "-fr", "-r", "-R", "--no-preserve-root"]

/-- `protected_paths` from `_validate_rm_command`. -/
def protected_paths : List String := ["/", "~", "/home", "/etc", "/usr", "/var", "/root"]

/-- Model of `ExecTool._validate_rm_command`: reject only when the
    arguments contain a recursive-deletion flag and a non-flag argument
    that is a protected path or an absolute path not under `/tmp`. -/
def validate_rm_command (args : List String) : Option String :=
  if (args.any (fun a => dangerous_flags.contains a)) &&
     (args.any (fun a => !(strStartsWith a "-") &&
        (protected_paths.contains a ||
         (strStartsWith a "/" && !(strStartsWith a "/tmp"))))) then
    some "Blocked: recursive rm on protected path"
  else none

/-- Model of `ExecTool.is_command_safe`: the empty-command guard followed
    by the four policy checks in order (blocked patterns, allow-list,
    directory, rm), short-circuiting at the first failure. -/
def ExecTool.is_command_safe (t : ExecTool)
    (resolve : String → Except String (List String))
    (command : String) (cwd : Option String) : Bool × String :=
  if (parseCommand command).1 = "" then (false, "Empty command")
  else
    match t.check_blocked_patterns command with
    | some m => (false, m)
    | none =>
      match t.check_allowed_command (parseCommand command).1 with
      | some m => (false, m)
      | none =>
        match t.validate_directory resolve cwd with
        | some m => (false, m)
        | none =>
          if pathName (parseCommand command).1 = "rm" then
            match validate_rm_command (parseCommand command).2 with
            | some m => (false, m)
            | none => (true, "")
          else (true, "")

/-- The result record `execute` returns for a policy rejection. -/
def rejectResult (msg : String) : ExecResult :=
  { success := false, exit_code := -1, stdout := "", stderr := msg,
    duration_ms := 0 }

/-- Truncation notice appended to stderr when stdout exceeded the cap. -/
def outputNotice (n : Nat) : String :=
  "\n[Output truncated - " ++ toString n ++ " bytes total]"

/-- Truncation notice appended to stderr when stderr exceeded the cap. -/
def stderrNotice (n : Nat) : String :=
  "\n[Stderr truncated - " ++ toString n ++ " bytes total]"

/-- Captured stderr truncated to the cap, with the stdout-truncation
    notice appended when stdout exceeded the cap. -/
def stderrWithOutNotice (cap : Nat) (out err : String) : String :=
  if cap < out.length then pyTake err cap ++ outputNotice out.length
  else pyTake err cap

/-- The stderr text `execute` returns on normal completion: truncated
    captured stderr plus the stdout and stderr truncation notices. -/
def combinedStderr (cap : Nat) (out err : String) : String :=
  if cap < err.length then stderrWithOutNotice cap out err ++ stderrNotice err.length
  else stderrWithOutNotice cap out err

/-- The result record `execute` builds from a subprocess outcome, given
    the effective (already clamped) timeout. -/
def runResult (t : ExecTool) (o : RunOutcome) (timeout : Int) : ExecResult :=
  match o with
  | RunOutcome.completed rc out err d =>
    { success := rc == 0, exit_code := rc,
      stdout := pyTake out t.max_output_size,
      stderr := combinedStderr t.max_output_size out err,
      duration_ms := d }
  | RunOutcome.timedOut =>
    { success := false, exit_code := -1, stdout := "",
      stderr := "Command timed out after " ++ toString timeout ++ "s",
      duration_ms := timeout * 1000 }
  | RunOutcome.execError m d =>
    { success := false, exit_code := -1, stdout := "",
      stderr := "Execution error: " ++ m, duration_ms := d }

/-- Model of line 313, `Path(cwd).resolve() if cwd else Path.cwd()`:
    `getCwd` models `Path.cwd()`.  This happens outside the `try` block,
    so an error here is an exception escaping `execute`. -/
def resolveWorkDir (resolve : String → Except String (List String))
    (getCwd : Except String (List String)) (cwd : Option String) :
    Except String (List String) :=
  match cwd with
  | some c => if c = "" then getCwd else resolve c
  | none => getCwd

/-- Model of `ExecTool.execute`: run the policy checks, return the
    rejection record on failure; otherwise clamp the timeout, resolve the
    working directory (an error here escapes as an exception), and build
    the result from the subprocess outcome. -/
def ExecTool.execute (t : ExecTool)
    (resolve : String → Except String (List String))
    (getCwd : Except String (List String)) (run : Int → RunOutcome)
    (command : String) (timeout : Int) (cwd : Option String) :
    Except String ExecResult :=
  if (t.is_command_safe resolve command cwd).1 = false then
    Except.ok (rejectResult (t.is_command_safe resolve command cwd).2)
  else
    match resolveWorkDir resolve getCwd cwd with
    | Except.error e => Except.error e
    | Except.ok _ =>
      Except.ok (runResult t (run (min timeout t.max_timeout))
        (min timeout t.max_timeout))

/-- Model of `ExecTool.add_allowed_command`. -/
def ExecTool.add_allowed_command (t : ExecTool) (command : String) : ExecTool :=
  if command ∈ t.allowed_commands then t
  else { t with allowed_commands := t.allowed_commands ++ [command] }

/-- Model of `ExecTool.remove_allowed_command` (`list.remove` drops the
    first occurrence). -/
def ExecTool.remove_allowed_command (t : ExecTool) (command : String) : ExecTool :=
  if command ∈ t.allowed_commands then
    { t with allowed_commands := t.allowed_commands.erase command }
  else t

/-- Model of `ExecTool.add_blocked_pattern`. -/
def ExecTool.add_blocked_pattern (t : ExecTool) (p : String) : ExecTool :=
  if p ∈ t.blocked_patterns then t
  else { t with blocked_patterns := t.blocked_patterns ++ [p] }

/-- Specification-side definition, following the spec's words in section
    4.2: the four checks run in the fixed order blocked-pattern,
    allow-list, directory, rm, and the first failure is the rejection
    reason.  Compared against `is_command_safe` for claim C2. -/
def specFirstFailingCheck (t : ExecTool)
    (resolve : String → Except String (List String))
    (cmd : String) (cwd : Option String) : Option String :=
  match t.check_blocked_patterns cmd with
  | some m => some m
  | none =>
    match t.check_allowed_command (parseCommand cmd).1 with
    | some m => some m
    | none =>
      match t.validate_directory resolve cwd with
      | some m => some m
      | none =>
        if pathName (parseCommand cmd).1 = "rm" then
          validate_rm_command (parseCommand cmd).2
        else none

/-- A resolver that models successful lexical resolution of any path. -/
def res0 : String → Except String (List String) := fun s => Except.ok [s]

/-- A trivially successful `Path.cwd()`. -/
def cwd0 : Except String (List String) := Except.ok []

/-- A subprocess model whose every run hits the timeout. -/
def run0 : Int → RunOutcome := fun _ => RunOutcome.timedOut

theorem strDataAppend (s t : String) : (s ++ t).data = s.data ++ t.data := by
  cases s; cases t; rfl

theorem mkData (s : String) : String.mk s.data = s := rfl

theorem prefixOfAppendSelf : ∀ (a b : List Char), List.isPrefixOf a (a ++ b) = true := by
  intro a b
  induction a with
  | nil => cases b with
    | nil => rfl
    | cons y ys => rfl
  | cons c cs ih => simp [List.isPrefixOf, ih]

theorem containsSeq_of_pre {sub l : List Char} (h : List.isPrefixOf sub l = true) :
    containsSeq sub l = true := by
  cases l with
  | nil => simpa [containsSeq] using h
  | cons c cs => simp [containsSeq, h]

theorem containsSeqAppend : ∀ (a b c : List Char), containsSeq b (a ++ (b ++ c)) = true := by
  intro a b c
  induction a with
  | nil => exact containsSeq_of_pre (prefixOfAppendSelf b c)
  | cons x xs ih =>
    rw [List.cons_append]
    show (List.isPrefixOf b (x :: (xs ++ (b ++ c))) || containsSeq b (xs ++ (b ++ c))) = true
    rw [ih, Bool.or_true]

theorem strContains_append_right (a b : String) : strContains (a ++ b) b = true := by
  have h := containsSeqAppend a.data b.data []
  rw [List.append_nil] at h
  simpa [strContains, strDataAppend] using h

theorem strContains_append_mid (a b c : String) : strContains ((a ++ b) ++ c) b = true := by
  have h := containsSeqAppend a.data b.data c.data
  simpa [strContains, strDataAppend, List.append_assoc] using h

theorem containsSeq_nil_left : ∀ l : List Char, containsSeq [] l = true := by
  intro l
  cases l with
  | nil => rfl
  | cons c cs => rfl

theorem appendNeEmptyLeft (a b : String) (h : a ≠ "") : a ++ b ≠ "" := by
  intro hc
  apply h
  have hd : a.data ++ b.data = [] := by
    have := congrArg String.data hc
    rwa [strDataAppend] at this
  have ha : a.data = [] := by
    cases hda : a.data with
    | nil => rfl
    | cons x xs => rw [hda] at hd; simp at hd
  calc a = String.mk a.data := (mkData a).symm
    _ = String.mk [] := by rw [ha]
    _ = "" := rfl

theorem blockedMessage_ne_empty (p : String) : blockedMessage p ≠ "" := by
  unfold blockedMessage
  exact appendNeEmptyLeft _ _ (appendNeEmptyLeft _ _ (by decide))

theorem allowedMessage_ne_empty (n : String) : allowedMessage n ≠ "" := by
  unfold allowedMessage
  exact appendNeEmptyLeft _ _ (appendNeEmptyLeft _ _ (by decide))

theorem notAllowedMessage_ne_empty (c : String) : notAllowedMessage c ≠ "" := by
  unfold notAllowedMessage
  exact appendNeEmptyLeft _ _ (appendNeEmptyLeft _ _ (by decide))

theorem invalidMessage_ne_empty (e : String) : invalidMessage e ≠ "" := by
  unfold invalidMessage
  exact appendNeEmptyLeft _ _ (by decide)

theorem find_some_of_exists {α : Type} (p : α → Bool) :
    ∀ l : List α, (∃ x, x ∈ l ∧ p x = true) →
      ∃ y, l.find? p = some y ∧ y ∈ l ∧ p y = true := by
  intro l
  induction l with
  | nil => rintro ⟨x, hx, _⟩; cases hx
  | cons a as ih =>
    rintro ⟨x, hx, hpx⟩
    cases hpa : p a with
    | true => exact ⟨a, by simp [List.find?_cons, hpa], List.mem_cons_self a as, hpa⟩
    | false =>
      have hxas : x ∈ as := by
        rcases List.mem_cons.mp hx with hxa | hmem
        · subst hxa; rw [hpx] at hpa; cases hpa
        · exact hmem
      obtain ⟨y, hf, hm, hp⟩ := ih ⟨x, hxas, hpx⟩
      exact ⟨y, by simp [List.find?_cons, hpa, hf], List.mem_cons_of_mem a hm, hp⟩

theorem pyTake_of_le (s : String) (n : Nat) (h : s.length ≤ n) : pyTake s n = s := by
  unfold pyTake
  have hd : s.data.take n = s.data := List.take_of_length_le h
  rw [hd, mkData]

theorem is_command_safe_empty (t : ExecTool)
    (resolve : String → Except String (List String)) (cmd : String)
    (cwd : Option String) (h : (parseCommand cmd).1 = "") :
    t.is_command_safe resolve cmd cwd = (false, "Empty command") := by
  unfold ExecTool.is_command_safe
  rw [if_pos h]

theorem execute_of_reject {t : ExecTool}
    {resolve : String → Except String (List String)} {cmd : String}
    {cwd : Option String} {m : String}
    (h : t.is_command_safe resolve cmd cwd = (false, m)) :
    ∀ getCwd run (timeout : Int),
      t.execute resolve getCwd run cmd timeout cwd = Except.ok (rejectResult m) := by
  intro getCwd run timeout
  unfold ExecTool.execute
  rw [h]
  simp

theorem execute_of_safe {t : ExecTool}
    {resolve : String → Except String (List String)} {cmd : String}
    {cwd : Option String}
    (h : (t.is_command_safe resolve cmd cwd).1 = true)
    {getCwd : Except String (List String)} {w : List String}
    (hw : resolveWorkDir resolve getCwd cwd = Except.ok w)
    (run : Int → RunOutcome) (timeout : Int) :
    t.execute resolve getCwd run cmd timeout cwd =
      Except.ok (runResult t (run (min timeout t.max_timeout))
        (min timeout t.max_timeout)) := by
  unfold ExecTool.execute
  rw [h, hw]
  simp

theorem check_blocked_of_find {t : ExecTool} {cmd p : String}
    (hf : List.find? (fun q => strContains (pyLower cmd) (pyLower q))
      t.blocked_patterns = some p) :
    t.check_blocked_patterns cmd = some (blockedMessage p) := by
  unfold ExecTool.check_blocked_patterns
  rw [hf]
  rfl

theorem is_command_safe_of_blocked {t : ExecTool}
    {resolve : String → Except String (List String)} {cmd : String}
    {cwd : Option String} {m : String}
    (hb : (parseCommand cmd).1 ≠ "")
    (hcb : t.check_blocked_patterns cmd = some m) :
    t.is_command_safe resolve cmd cwd = (false, m) := by
  unfold ExecTool.is_command_safe
  rw [if_neg hb, hcb]

theorem is_command_safe_of_allowlist {t : ExecTool}
    {resolve : String → Except String (List String)} {cmd : String}
    {cwd : Option String} {m : String}
    (hb : (parseCommand cmd).1 ≠ "")
    (hcb : t.check_blocked_patterns cmd = none)
    (hca : t.check_allowed_command (parseCommand cmd).1 = some m) :
    t.is_command_safe resolve cmd cwd = (false, m) := by
  unfold ExecTool.is_command_safe
  rw [if_neg hb, hcb, hca]

theorem dirLoop_some_shape (resolve : String → Except String (List String))
    (r : List String) (c : String) :
    ∀ ds : List String, ∀ m, dirLoop resolve r c ds = some m →
      m = notAllowedMessage c ∨ ∃ e, m = invalidMessage e := by
  intro ds
  induction ds with
  | nil =>
    intro m hm
    left
    exact (Option.some.inj hm).symm
  | cons d ds ih =>
    intro m hm
    unfold dirLoop at hm
    cases hres : resolve d with
    | error e =>
      rw [hres] at hm
      have hm2 : some (invalidMessage e) = some m := hm
      right
      exact ⟨e, (Option.some.inj hm2).symm⟩
    | ok rd =>
      rw [hres] at hm
      have hm2 : (if List.isPrefixOf rd r = true then none
          else dirLoop resolve r c ds) = some m := hm
      cases hp : List.isPrefixOf rd r with
      | true => rw [hp, if_pos rfl] at hm2; cases hm2
      | false =>
        rw [hp, if_neg (by decide : ¬(false = true))] at hm2
        exact ih m hm2

theorem dirLoop_notAllowed_iff (resolve : String → Except String (List String))
    (r : List String) (c : String) :
    ∀ ds : List String, (∀ d ∈ ds, ∃ rd, resolve d = Except.ok rd) →
      (dirLoop resolve r c ds = some (notAllowedMessage c) ↔
        ∀ d rd, d ∈ ds → resolve d = Except.ok rd →
          List.isPrefixOf rd r = false) := by
  intro ds
  induction ds with
  | nil =>
    intro _
    constructor
    · intro _ d rd hd _; cases hd
    · intro _; rfl
  | cons a as ih =>
    intro hall
    obtain ⟨ra, hra⟩ := hall a (List.mem_cons_self a as)
    have ihs := ih (fun d hd => hall d (List.mem_cons_of_mem a hd))
    constructor
    · intro hm d rd hd hres
      unfold dirLoop at hm
      rw [hra] at hm
      have hm2 : (if List.isPrefixOf ra r = true then none
          else dirLoop resolve r c as) = some (notAllowedMessage c) := hm
      cases hp : List.isPrefixOf ra r with
      | true => rw [hp, if_pos rfl] at hm2; cases hm2
      | false =>
        rw [hp, if_neg (by decide : ¬(false = true))] at hm2
        rcases List.mem_cons.mp hd with hda | hmem
        · subst hda
          rw [hres] at hra
          rw [Except.ok.inj hra]
          exact hp
        · exact ihs.mp hm2 d rd hmem hres
    · intro hforall
      have hpa : List.isPrefixOf ra r = false :=
        hforall a ra (List.mem_cons_self a as) hra
      unfold dirLoop
      rw [hra]
      show (if List.isPrefixOf ra r = true then none
          else dirLoop resolve r c as) = some (notAllowedMessage c)
      rw [hpa, if_neg (by decide : ¬(false = true))]
      exact ihs.mpr (fun d rd hd hres => hforall d rd (List.mem_cons_of_mem a hd) hres)

theorem dirLoop_none_or_notAllowed (resolve : String → Except String (List String))
    (r : List String) (c : String) :
    ∀ ds : List String, (∀ d ∈ ds, ∃ rd, resolve d = Except.ok rd) →
      dirLoop resolve r c ds = none ∨
      dirLoop resolve r c ds = some (notAllowedMessage c) := by
  intro ds
  induction ds with
  | nil => intro _; right; rfl
  | cons a as ih =>
    intro hall
    obtain ⟨ra, hra⟩ := hall a (List.mem_cons_self a as)
    unfold dirLoop
    rw [hra]
    show (if List.isPrefixOf ra r = true then none
        else dirLoop resolve r c as) = none ∨
      (if List.isPrefixOf ra r = true then none
        else dirLoop resolve r c as) = some (notAllowedMessage c)
    cases hp : List.isPrefixOf ra r with
    | true => rw [if_pos rfl]; left; rfl
    | false =>
      rw [if_neg (by decide : ¬(false = true))]
      exact ih (fun d hd => hall d (List.mem_cons_of_mem a hd))

theorem validate_directory_resolved (t : ExecTool)
    (resolve : String → Except String (List String)) (c : String)
    (hdirs : t.allowed_directories ≠ []) (hc : c ≠ "") :
    t.validate_directory resolve (some c) =
      match resolve c with
      | Except.error e => some (invalidMessage e)
      | Except.ok r => dirLoop resolve r c t.allowed_directories := by
  unfold ExecTool.validate_directory
  show (if c = "" then none
      else if t.allowed_directories = [] then none
      else match resolve c with
        | Except.error e => some (invalidMessage e)
        | Except.ok r => dirLoop resolve r c t.allowed_directories) = _
  rw [if_neg hc, if_neg hdirs]

theorem validate_directory_some_ne_empty {t : ExecTool}
    {resolve : String → Except String (List String)} {cwd : Option String}
    {m : String} (h : t.validate_directory resolve cwd = some m) : m ≠ "" := by
  unfold ExecTool.validate_directory at h
  cases cwd with
  | none => exact Option.noConfusion h
  | some c =>
    have h2 : (if c = "" then none
        else if t.allowed_directories = [] then none
        else match resolve c with
          | Except.error e => some (invalidMessage e)
          | Except.ok r => dirLoop resolve r c t.allowed_directories) =
        some m := h
    by_cases hc : c = ""
    · rw [if_pos hc] at h2; cases h2
    · rw [if_neg hc] at h2
      by_cases hd : t.allowed_directories = []
      · rw [if_pos hd] at h2; cases h2
      · rw [if_neg hd] at h2
        cases hres : resolve c with
        | error e =>
          rw [hres] at h2
          have h3 : some (invalidMessage e) = some m := h2
          rw [← Option.some.inj h3]
          exact invalidMessage_ne_empty e
        | ok r =>
          rw [hres] at h2
          have h3 : dirLoop resolve r c t.allowed_directories = some m := h2
          rcases dirLoop_some_shape resolve r c t.allowed_directories m h3 with
            h1 | ⟨e, h4⟩
          · rw [h1]; exact notAllowedMessage_ne_empty c
          · rw [h4]; exact invalidMessage_ne_empty e

theorem is_command_safe_eq_spec (t : ExecTool)
    (resolve : String → Except String (List String)) (cmd : String)
    (cwd : Option String) (hb : (parseCommand cmd).1 ≠ "") :
    t.is_command_safe resolve cmd cwd =
      (match specFirstFailingCheck t resolve cmd cwd with
       | some m => (false, m)
       | none => (true, "")) := by
  unfold ExecTool.is_command_safe specFirstFailingCheck
  rw [if_neg hb]
  cases t.check_blocked_patterns cmd with
  | some m => rfl
  | none =>
    cases t.check_allowed_command (parseCommand cmd).1 with
    | some m => rfl
    | none =>
      cases t.validate_directory resolve cwd with
      | some m => rfl
      | none =>
        by_cases hrm : pathName (parseCommand cmd).1 = "rm"
        · rw [if_pos hrm, if_pos hrm]
        · rw [if_neg hrm, if_neg hrm]

theorem validate_rm_some_shape {args : List String} {m : String}
    (h : validate_rm_command args = some m) :
    m = "Blocked: recursive rm on protected path" := by
  unfold validate_rm_command at h
  by_cases hc : ((args.any fun a => dangerous_flags.contains a) &&
      (args.any fun a => !strStartsWith a "-" && (protected_paths.contains a ||
        (strStartsWith a "/" && !strStartsWith a "/tmp")))) = true
  · rw [if_pos hc] at h; exact (Option.some.inj h).symm
  · rw [if_neg hc] at h; cases h

theorem specFirstFailingCheck_ne_empty {t : ExecTool}
    {resolve : String → Except String (List String)} {cmd : String}
    {cwd : Option String} {m : String}
    (h : specFirstFailingCheck t resolve cmd cwd = some m) : m ≠ "" := by
  unfold specFirstFailingCheck at h
  cases hcb : t.check_blocked_patterns cmd with
  | some b =>
    rw [hcb] at h
    unfold ExecTool.check_blocked_patterns at hcb
    cases hf : List.find? (fun q => strContains (pyLower cmd) (pyLower q))
        t.blocked_patterns with
    | none => rw [hf] at hcb; cases hcb
    | some p =>
      rw [hf] at hcb
      rw [← Option.some.inj h, ← Option.some.inj hcb]
      exact blockedMessage_ne_empty p
  | none =>
    rw [hcb] at h
    cases hca : t.check_allowed_command (parseCommand cmd).1 with
    | some a =>
      rw [hca] at h
      unfold ExecTool.check_allowed_command at hca
      by_cases hreq : t.require_allowlist = false
      · rw [if_pos hreq] at hca; cases hca
      · rw [if_neg hreq] at hca
        by_cases hmem : pathName (parseCommand cmd).1 ∈ t.allowed_commands
        · rw [if_pos hmem] at hca; cases hca
        · rw [if_neg hmem] at hca
          rw [← Option.some.inj h, ← Option.some.inj hca]
          exact allowedMessage_ne_empty _
    | none =>
      rw [hca] at h
      cases hvd : t.validate_directory resolve cwd with
      | some dmsg =>
        rw [hvd] at h
        rw [← Option.some.inj h]
        exact validate_directory_some_ne_empty hvd
      | none =>
        rw [hvd] at h
        by_cases hrm : pathName (parseCommand cmd).1 = "rm"
        · rw [if_pos hrm] at h
          rw [validate_rm_some_shape h]
          decide
        · rw [if_neg hrm] at h; cases h

theorem shlexCore_ws : ∀ l : List Char, (∀ c ∈ l, isShlexWS c = true) →
    shlexCore l LexState.ws [] false [] = some [] := by
  intro l
  induction l with
  | nil => intro _; rfl
  | cons c cs ih =>
    intro h
    have hc : isShlexWS c = true := h c (List.mem_cons_self c cs)
    simp only [shlexCore, hc, if_pos]
    exact ih (fun d hd => h d (List.mem_cons_of_mem c hd))

theorem parseCommand_ws {cmd : String} (h : ∀ c ∈ cmd.data, isShlexWS c = true) :
    parseCommand cmd = ("", []) := by
  unfold parseCommand shlexSplit
  rw [shlexCore_ws cmd.data h]

theorem mem_add_allowed (t : ExecTool) (c : String) :
    c ∈ (t.add_allowed_command c).allowed_commands := by
  unfold ExecTool.add_allowed_command
  by_cases h : c ∈ t.allowed_commands
  · rw [if_pos h]; exact h
  · rw [if_neg h]; simp

/-- A resolver modelling `Path(x).resolve()` raising (as CPython does, e.g.
    `ValueError: embedded null byte`) on paths containing a NUL byte. -/
def badResolve : String → Except String (List String) := fun s =>
  if strContains s "\x00" then Except.error "ValueError: embedded null byte"
  else Except.ok [s]

/-- Claim C10: every command string that is empty or consists only of
    whitespace parses to an empty binary, and `execute` then returns
    `success=false, exit_code=-1, stdout=""`, `stderr="Empty command"` and
    `duration_ms=0` — for every policy, resolver and subprocess model, so
    none of the four policy checks influences the result and no process
    is spawned. -/
theorem empty_command_rejected : ∀ cmd : String,
    (∀ c ∈ cmd.data, isShlexWS c = true) →
    (parseCommand cmd).1 = "" ∧
    ∀ (t : ExecTool) (resolve : String → Except String (List String))
      (getCwd : Except String (List String)) (run : Int → RunOutcome)
      (timeout : Int) (cwd : Option String),
      t.execute resolve getCwd run cmd timeout cwd =
        Except.ok (rejectResult "Empty command") := by
  intro cmd h
  have hp : parseCommand cmd = ("", []) := parseCommand_ws h
  have hp1 : (parseCommand cmd).1 = "" := by rw [hp]
  refine ⟨hp1, ?_⟩
  intro t resolve getCwd run timeout cwd
  exact execute_of_reject (is_command_safe_empty t resolve cmd cwd hp1)
    getCwd run timeout

/-- Witness for C10 at the whitespace-only command `"  \t "`. -/
theorem empty_command_rejected_witness :
    (∀ c ∈ ("  \t " : String).data, isShlexWS c = true) ∧
    ((parseCommand "  \t ").1 = "" ∧
      ∀ (t : ExecTool) (resolve : String → Except String (List String))
        (getCwd : Except String (List String)) (run : Int → RunOutcome)
        (timeout : Int) (cwd : Option String),
        t.execute resolve getCwd run "  \t " timeout cwd =
          Except.ok (rejectResult "Empty command")) :=
  ⟨by decide, empty_command_rejected "  \t " (by decide)⟩

/-- Claim C1, counterexample to the claim as stated: the command
    `"" sudo x` contains the blocked pattern `sudo ` as a case-insensitive
    substring, and `execute` under the default policy does return
    `success=false, exit_code=-1` without spawning — but its stderr is
    `Empty command` (the parsed binary is empty) and does not name the
    matched pattern. -/
theorem blocked_pattern_empty_binary_cex :
    ("sudo " ∈ defaultTool.blocked_patterns ∧
      strContains (pyLower "\"\" sudo x") (pyLower "sudo ") = true) ∧
    defaultTool.execute res0 cwd0 run0 "\"\" sudo x" 60 none =
      Except.ok (rejectResult "Empty command") ∧
    strContains "Empty command" "sudo " = false := by decide

/-- Claim C1 (amended): for every command whose parsed binary is non-empty
    and which contains some blocked pattern as a case-insensitive
    substring of the raw command text, `execute` returns
    `success=false, exit_code=-1, stdout="", duration_ms=0` with a stderr
    naming the (first) matched pattern, for every resolver, cwd source and
    subprocess model — i.e. without invoking the executor.  (Commands
    parsing to an empty binary are instead rejected as `Empty command`.) -/
theorem blocked_pattern_rejects_before_spawn : ∀ (t : ExecTool) (cmd : String),
    (parseCommand cmd).1 ≠ "" →
    (∃ p, p ∈ t.blocked_patterns ∧ strContains (pyLower cmd) (pyLower p) = true) →
    ∃ q, q ∈ t.blocked_patterns ∧ strContains (pyLower cmd) (pyLower q) = true ∧
      strContains (blockedMessage q) q = true ∧
      ∀ (resolve : String → Except String (List String))
        (getCwd : Except String (List String)) (run : Int → RunOutcome)
        (timeout : Int) (cwd : Option String),
        t.execute resolve getCwd run cmd timeout cwd =
          Except.ok (rejectResult (blockedMessage q)) := by
  intro t cmd hbin hex
  obtain ⟨q, hf, hm, hp⟩ := find_some_of_exists _ t.blocked_patterns hex
  refine ⟨q, hm, hp, ?_, ?_⟩
  · unfold blockedMessage
    exact strContains_append_mid _ _ _
  · intro resolve getCwd run timeout cwd
    exact execute_of_reject
      (is_command_safe_of_blocked hbin (check_blocked_of_find hf))
      getCwd run timeout

/-- Witness for C1 (amended) at `sudo ls` under the default policy. -/
theorem blocked_pattern_rejects_before_spawn_witness :
    ((parseCommand "sudo ls").1 ≠ "" ∧
      (∃ p, p ∈ defaultTool.blocked_patterns ∧
        strContains (pyLower "sudo ls") (pyLower p) = true)) ∧
    (∃ q, q ∈ defaultTool.blocked_patterns ∧
      strContains (pyLower "sudo ls") (pyLower q) = true ∧
      strContains (blockedMessage q) q = true ∧
      ∀ (resolve : String → Except String (List String))
        (getCwd : Except String (List String)) (run : Int → RunOutcome)
        (timeout : Int) (cwd : Option String),
        defaultTool.execute resolve getCwd run "sudo ls" timeout cwd =
          Except.ok (rejectResult (blockedMessage q))) :=
  ⟨⟨by decide, ⟨"sudo ", by decide, by decide⟩⟩,
   blocked_pattern_rejects_before_spawn defaultTool "sudo ls" (by decide)
     ⟨"sudo ", by decide, by decide⟩⟩

/-- Claim C2, counterexample to the claim as stated: on the command `''`
    (which parses to an empty binary) the allow-list check fails — and it
    is the first failing check of the four, since the blocked-pattern
    check passes — yet `execute` reports `Empty command`, not the
    allow-list rejection reason. -/
theorem first_failing_reason_cex :
    defaultTool.check_blocked_patterns "\x27\x27" = none ∧
    defaultTool.check_allowed_command (parseCommand "\x27\x27").1 =
      some (allowedMessage "") ∧
    defaultTool.execute res0 cwd0 run0 "\x27\x27" 60 none =
      Except.ok (rejectResult "Empty command") ∧
    "Empty command" ≠ allowedMessage "" := by decide

/-- Claim C2 (amended): for every command whose parsed binary is
    non-empty, if any of the four policy checks fails then `execute`
    returns `success=false, exit_code=-1, stdout=""`, `duration_ms=0` and
    a non-empty stderr equal to the reason of the first failing check in
    the fixed order blocked-pattern, allow-list, directory, rm
    (`specFirstFailingCheck`), without reaching the executor.  (Commands
    parsing to an empty binary are rejected earlier as `Empty command`.) -/
theorem policy_failure_first_reason : ∀ (t : ExecTool)
    (resolve : String → Except String (List String)) (cmd : String)
    (cwd : Option String) (m : String),
    (parseCommand cmd).1 ≠ "" →
    specFirstFailingCheck t resolve cmd cwd = some m →
    m ≠ "" ∧ ∀ (getCwd : Except String (List String))
      (run : Int → RunOutcome) (timeout : Int),
      t.execute resolve getCwd run cmd timeout cwd =
        Except.ok (rejectResult m) := by
  intro t resolve cmd cwd m hb hspec
  refine ⟨specFirstFailingCheck_ne_empty hspec, ?_⟩
  intro getCwd run timeout
  have hs := is_command_safe_eq_spec t resolve cmd cwd hb
  rw [hspec] at hs
  have hs2 : t.is_command_safe resolve cmd cwd = (false, m) := hs
  exact execute_of_reject hs2 getCwd run timeout

/-- Witness for C2 (amended) at the non-allow-listed command
    `frobnicate`. -/
theorem policy_failure_first_reason_witness :
    ((parseCommand "frobnicate").1 ≠ "" ∧
      specFirstFailingCheck defaultTool res0 "frobnicate" none =
        some (allowedMessage "frobnicate")) ∧
    (allowedMessage "frobnicate" ≠ "" ∧
      ∀ (getCwd : Except String (List String)) (run : Int → RunOutcome)
        (timeout : Int),
        defaultTool.execute res0 getCwd run "frobnicate" timeout none =
          Except.ok (rejectResult (allowedMessage "frobnicate"))) :=
  ⟨⟨by decide, by decide⟩,
   policy_failure_first_reason defaultTool res0 "frobnicate" none
     (allowedMessage "frobnicate") (by decide) (by decide)⟩

/-- Claim C3, counterexample to the claim as stated: under the default
    policy `rm -rf ./build` is NOT allowed to proceed past the policy
    checks — the blocked-pattern check rejects it, because `rm -rf` is
    itself a default blocked pattern. -/
theorem rm_rf_build_not_allowed_cex :
    (defaultTool.is_command_safe res0 "rm -rf ./build" none).1 = false ∧
    defaultTool.execute res0 cwd0 run0 "rm -rf ./build" 60 none =
      Except.ok (rejectResult (blockedMessage "rm -rf")) := by decide

/-- Claim C3 (amended): under the default policy both `rm -rf /` and
    `rm -rf ./build` are rejected (success=false, exit_code=-1) by the
    blocked-pattern check, since `rm -rf` is a default blocked pattern;
    the rm-specific check in isolation does permit the relative deletion
    (`validate_rm_command` returns no error on the arguments of
    `rm -rf ./build`) while rejecting `rm -rf /` (recursive deletion of a
    protected path). -/
theorem rm_policy_default_behavior :
    defaultTool.execute res0 cwd0 run0 "rm -rf /" 60 none =
      Except.ok (rejectResult (blockedMessage "rm -rf")) ∧
    defaultTool.execute res0 cwd0 run0 "rm -rf ./build" 60 none =
      Except.ok (rejectResult (blockedMessage "rm -rf")) ∧
    parseCommand "rm -rf ./build" = ("rm", ["rm", "-rf", "./build"]) ∧
    validate_rm_command ["rm", "-rf", "./build"] = none ∧
    parseCommand "rm -rf /" = ("rm", ["rm", "-rf", "/"]) ∧
    validate_rm_command ["rm", "-rf", "/"] =
      some "Blocked: recursive rm on protected path" := by decide

/-- Claim C4 (code bug in the source): `execute` is NOT exception-free.
    The working-directory resolution on line 313
    (`Path(cwd).resolve() if cwd else Path.cwd()`) happens outside the
    `try` block, so when it raises (as `Path.resolve` does for a path
    with an embedded NUL byte) the exception escapes `execute`, after
    all policy checks passed (here: default policy, so the directory
    check is skipped). -/
theorem execute_can_raise_on_cwd_resolve :
    (defaultTool.is_command_safe badResolve "ls" (some "/tmp/\x00")).1 = true ∧
    defaultTool.execute badResolve cwd0 run0 "ls" 60 (some "/tmp/\x00") =
      Except.error "ValueError: embedded null byte" := by decide

theorem combinedStderr_both_le (cap : Nat) (out err : String)
    (hout : out.length ≤ cap) (herr : err.length ≤ cap) :
    combinedStderr cap out err = err := by
  unfold combinedStderr stderrWithOutNotice
  rw [if_neg (by omega : ¬cap < err.length)]
  rw [if_neg (by omega : ¬cap < out.length)]
  exact pyTake_of_le err cap herr

theorem combinedStderr_out_over (cap : Nat) (out err : String)
    (hout : cap < out.length) :
    strContains (combinedStderr cap out err) (outputNotice out.length) = true := by
  unfold combinedStderr stderrWithOutNotice
  by_cases herr : cap < err.length
  · rw [if_pos herr, if_pos hout]
    exact strContains_append_mid _ _ _
  · rw [if_neg herr, if_pos hout]
    exact strContains_append_right _ _

theorem combinedStderr_err_over (cap : Nat) (out err : String)
    (herr : cap < err.length) :
    strStartsWith (combinedStderr cap out err) (pyTake err cap) = true ∧
    strContains (combinedStderr cap out err) (stderrNotice err.length) = true := by
  unfold combinedStderr stderrWithOutNotice
  rw [if_pos herr]
  constructor
  · by_cases hout : cap < out.length
    · rw [if_pos hout]
      unfold strStartsWith
      rw [strDataAppend, strDataAppend, List.append_assoc]
      exact prefixOfAppendSelf _ _
    · rw [if_neg hout]
      unfold strStartsWith
      rw [strDataAppend]
      exact prefixOfAppendSelf _ _
  · by_cases hout : cap < out.length
    · rw [if_pos hout]; exact strContains_append_right _ _
    · rw [if_neg hout]; exact strContains_append_right _ _

/-- Claim C5: for every request that passes the policy checks (and whose
    working-directory resolution succeeds), the wait bound handed to the
    subprocess is `min(requested timeout, max_timeout)`; on its expiry
    `execute` returns `success=false, exit_code=-1, stdout=""`, a stderr
    naming the effective (clamped) timeout value, and `duration_ms` equal
    to the timeout window (effective timeout times 1000). -/
theorem timeout_clamped_and_reported : ∀ (t : ExecTool)
    (resolve : String → Except String (List String))
    (getCwd : Except String (List String)) (run : Int → RunOutcome)
    (cmd : String) (timeout : Int) (cwd : Option String) (w : List String),
    (t.is_command_safe resolve cmd cwd).1 = true →
    resolveWorkDir resolve getCwd cwd = Except.ok w →
    run (min timeout t.max_timeout) = RunOutcome.timedOut →
    t.execute resolve getCwd run cmd timeout cwd = Except.ok
      { success := false, exit_code := -1, stdout := "",
        stderr := "Command timed out after " ++
          toString (min timeout t.max_timeout) ++ "s",
        duration_ms := (min timeout t.max_timeout) * 1000 } := by
  intro t resolve getCwd run cmd timeout cwd w hsafe hw hrun
  rw [execute_of_safe hsafe hw run timeout, hrun]
  rfl

/-- Witness for C5: `timeout=10000` with `max_timeout=300` yields an
    effective bound of 300 and a 300s timeout report. -/
theorem timeout_clamped_and_reported_witness :
    ((defaultTool.is_command_safe res0 "ls" none).1 = true ∧
      resolveWorkDir res0 cwd0 none = Except.ok [] ∧
      run0 (min (10000 : Int) defaultTool.max_timeout) = RunOutcome.timedOut ∧
      min (10000 : Int) defaultTool.max_timeout = 300) ∧
    defaultTool.execute res0 cwd0 run0 "ls" 10000 none = Except.ok
      { success := false, exit_code := -1, stdout := "",
        stderr := "Command timed out after " ++
          toString (min (10000 : Int) defaultTool.max_timeout) ++ "s",
        duration_ms := (min (10000 : Int) defaultTool.max_timeout) * 1000 } :=
  ⟨⟨by decide, by decide, rfl, by decide⟩,
   timeout_clamped_and_reported defaultTool res0 cwd0 run0 "ls" 10000 none []
     (by decide) (by decide) rfl⟩

/-- Claim C6: for every completed execution, if captured stdout or stderr
    exceeds `max_output_size` it is hard-truncated to that size and a
    truncation notice naming the original length is appended to the
    returned stderr (also when the truncation occurred on stdout); when
    both captured streams are within the cap, stdout and stderr are
    returned unmodified with no notice appended. -/
theorem output_truncation_spec : ∀ (t : ExecTool)
    (resolve : String → Except String (List String))
    (getCwd : Except String (List String)) (run : Int → RunOutcome)
    (cmd : String) (timeout : Int) (cwd : Option String) (w : List String)
    (rc : Int) (out err : String) (d : Int),
    (t.is_command_safe resolve cmd cwd).1 = true →
    resolveWorkDir resolve getCwd cwd = Except.ok w →
    run (min timeout t.max_timeout) = RunOutcome.completed rc out err d →
    ∃ r : ExecResult,
      t.execute resolve getCwd run cmd timeout cwd = Except.ok r ∧
      (out.length ≤ t.max_output_size → err.length ≤ t.max_output_size →
        r.stdout = out ∧ r.stderr = err) ∧
      (t.max_output_size < out.length →
        r.stdout = pyTake out t.max_output_size ∧
        strContains r.stderr (outputNotice out.length) = true) ∧
      (t.max_output_size < err.length →
        strStartsWith r.stderr (pyTake err t.max_output_size) = true ∧
        strContains r.stderr (stderrNotice err.length) = true) := by
  intro t resolve getCwd run cmd timeout cwd w rc out err d hsafe hw hrun
  refine ⟨runResult t (RunOutcome.completed rc out err d)
    (min timeout t.max_timeout), ?_, ?_, ?_, ?_⟩
  · rw [execute_of_safe hsafe hw run timeout, hrun]
  · intro hout herr
    exact ⟨pyTake_of_le out _ hout, combinedStderr_both_le _ out err hout herr⟩
  · intro hout
    exact ⟨rfl, combinedStderr_out_over _ out err hout⟩
  · intro herr
    exact combinedStderr_err_over _ out err herr

/-- A tool with a small output cap, for the truncation witness. -/
def smallTool : ExecTool := { defaultTool with max_output_size := 3 }

/-- A subprocess model completing with a 6-character stdout and a
    2-character stderr. -/
def runC : Int → RunOutcome := fun _ => RunOutcome.completed 0 "abcdef" "xy" 5

/-- Witness for C6: with `max_output_size=3`, a completed run with stdout
    `abcdef` is truncated and the notice appended to stderr. -/
theorem output_truncation_spec_witness :
    ((smallTool.is_command_safe res0 "echo hi" none).1 = true ∧
      resolveWorkDir res0 cwd0 none = Except.ok [] ∧
      runC (min (60 : Int) smallTool.max_timeout) =
        RunOutcome.completed 0 "abcdef" "xy" 5) ∧
    (∃ r : ExecResult,
      smallTool.execute res0 cwd0 runC "echo hi" 60 none = Except.ok r ∧
      (("abcdef" : String).length ≤ smallTool.max_output_size →
        ("xy" : String).length ≤ smallTool.max_output_size →
        r.stdout = "abcdef" ∧ r.stderr = "xy") ∧
      (smallTool.max_output_size < ("abcdef" : String).length →
        r.stdout = pyTake "abcdef" smallTool.max_output_size ∧
        strContains r.stderr (outputNotice ("abcdef" : String).length) = true) ∧
      (smallTool.max_output_size < ("xy" : String).length →
        strStartsWith r.stderr (pyTake "xy" smallTool.max_output_size) = true ∧
        strContains r.stderr (stderrNotice ("xy" : String).length) = true)) :=
  ⟨⟨by decide, by decide, rfl⟩,
   output_truncation_spec smallTool res0 cwd0 runC "echo hi" 60 none []
     0 "abcdef" "xy" 5 (by decide) (by decide) rfl⟩

/-- Claim C7: when the allow-list is enforced, every command that passes
    the blocked-pattern check and whose parsed binary basename is not in
    `allowed_commands` is rejected before execution (independently of the
    resolver, cwd source and subprocess model) with a stderr containing
    the basename; when `require_allowlist` is false, the allow-list check
    never rejects. -/
theorem allowlist_rejects_unknown_binary : ∀ (t : ExecTool) (cmd : String),
    (t.require_allowlist = true →
      t.check_blocked_patterns cmd = none →
      pathName (parseCommand cmd).1 ∉ t.allowed_commands →
      ∃ e, strContains e (pathName (parseCommand cmd).1) = true ∧
        ∀ (resolve : String → Except String (List String))
          (getCwd : Except String (List String)) (run : Int → RunOutcome)
          (timeout : Int) (cwd : Option String),
          t.execute resolve getCwd run cmd timeout cwd =
            Except.ok (rejectResult e)) ∧
    (t.require_allowlist = false →
      ∀ b, t.check_allowed_command b = none) := by
  intro t cmd
  constructor
  · intro hreq hcb hmem
    by_cases hbin : (parseCommand cmd).1 = ""
    · refine ⟨"Empty command", ?_, ?_⟩
      · rw [hbin, (by decide : pathName "" = "")]
        exact containsSeq_nil_left _
      · intro resolve getCwd run timeout cwd
        exact execute_of_reject (is_command_safe_empty t resolve cmd cwd hbin)
          getCwd run timeout
    · refine ⟨allowedMessage (pathName (parseCommand cmd).1), ?_, ?_⟩
      · unfold allowedMessage
        exact strContains_append_mid _ _ _
      · intro resolve getCwd run timeout cwd
        have hne : ¬(t.require_allowlist = false) := by rw [hreq]; decide
        have hca : t.check_allowed_command (parseCommand cmd).1 =
            some (allowedMessage (pathName (parseCommand cmd).1)) := by
          unfold ExecTool.check_allowed_command
          rw [if_neg hne, if_neg hmem]
        exact execute_of_reject (is_command_safe_of_allowlist hbin hcb hca)
          getCwd run timeout
  · intro hreq b
    unfold ExecTool.check_allowed_command
    rw [if_pos hreq]

/-- Witness for C7 at the unknown binary `frobnicate --x` under the
    default policy. -/
theorem allowlist_rejects_unknown_binary_witness :
    (defaultTool.require_allowlist = true ∧
      defaultTool.check_blocked_patterns "frobnicate --x" = none ∧
      pathName (parseCommand "frobnicate --x").1 ∉ defaultTool.allowed_commands) ∧
    (∃ e, strContains e (pathName (parseCommand "frobnicate --x").1) = true ∧
      ∀ (resolve : String → Except String (List String))
        (getCwd : Except String (List String)) (run : Int → RunOutcome)
        (timeout : Int) (cwd : Option String),
        defaultTool.execute resolve getCwd run "frobnicate --x" timeout cwd =
          Except.ok (rejectResult e)) :=
  ⟨⟨by decide, by decide, by decide⟩,
   (allowlist_rejects_unknown_binary defaultTool "frobnicate --x").1
     (by decide) (by decide) (by decide)⟩

/-- Claim C8: with a non-empty `allowed_directories` and a given (non-empty)
    cwd whose resolution succeeds, the directory check rejects with the
    "not in allowed directories" message exactly when the resolved cwd is
    not a descendant of (or equal to) any resolved entry (and otherwise
    passes); a resolution error is reported as the distinct
    "Invalid directory" reason; with no `allowed_directories` or no cwd,
    the check never rejects. -/
theorem directory_check_spec : ∀ (t : ExecTool)
    (resolve : String → Except String (List String)) (c : String)
    (r : List String),
    (t.allowed_directories ≠ [] → c ≠ "" →
      ((resolve c = Except.ok r →
        (∀ d ∈ t.allowed_directories, ∃ rd, resolve d = Except.ok rd) →
        ((t.validate_directory resolve (some c) = some (notAllowedMessage c) ↔
          ∀ d rd, d ∈ t.allowed_directories → resolve d = Except.ok rd →
            List.isPrefixOf rd r = false) ∧
         (t.validate_directory resolve (some c) = none ∨
          t.validate_directory resolve (some c) = some (notAllowedMessage c)))) ∧
       (∀ e, resolve c = Except.error e →
         t.validate_directory resolve (some c) = some (invalidMessage e)))) ∧
    t.validate_directory resolve none = none ∧
    (t.allowed_directories = [] →
      ∀ cw, t.validate_directory resolve cw = none) := by
  intro t resolve c r
  refine ⟨?_, rfl, ?_⟩
  · intro hdirs hc
    constructor
    · intro hres hall
      have hv := validate_directory_resolved t resolve c hdirs hc
      rw [hres] at hv
      have hv2 : t.validate_directory resolve (some c) =
          dirLoop resolve r c t.allowed_directories := hv
      constructor
      · rw [hv2]
        exact dirLoop_notAllowed_iff resolve r c t.allowed_directories hall
      · rw [hv2]
        exact dirLoop_none_or_notAllowed resolve r c t.allowed_directories hall
    · intro e hres
      have hv := validate_directory_resolved t resolve c hdirs hc
      rw [hres] at hv
      exact hv
  · intro hdirs cw
    unfold ExecTool.validate_directory
    cases cw with
    | none => rfl
    | some cc =>
      show (if cc = "" then none
          else if t.allowed_directories = [] then none
          else match resolve cc with
            | Except.error e => some (invalidMessage e)
            | Except.ok rr => dirLoop resolve rr cc t.allowed_directories) = none
      by_cases hcc : cc = ""
      · rw [if_pos hcc]
      · rw [if_neg hcc, if_pos hdirs]

/-- A tool restricted to `allowed_directories = ["/work"]`. -/
def wTool : ExecTool := { defaultTool with allowed_directories := ["/work"] }

/-- A resolver for the directory-check witness. -/
def wResolve : String → Except String (List String) := fun s =>
  if s = "/work" then Except.ok ["work"]
  else if s = "/work/sub" then Except.ok ["work", "sub"]
  else if s = "/etc" then Except.ok ["etc"]
  else Except.error "no such file"

/-- Witness for C8: with `allowed_directories=["/work"]`, `cwd="/etc"` is
    rejected with the "not in allowed directories" message. -/
theorem directory_check_spec_witness :
    (wTool.allowed_directories ≠ [] ∧ ("/etc" : String) ≠ "" ∧
      wResolve "/etc" = Except.ok ["etc"]) ∧
    wTool.validate_directory wResolve (some "/etc") =
      some (notAllowedMessage "/etc") := by
  refine ⟨⟨by decide, by decide, by decide⟩, ?_⟩
  have hall : ∀ d ∈ wTool.allowed_directories, ∃ rd, wResolve d = Except.ok rd := by
    intro d hd
    rw [show wTool.allowed_directories = ["/work"] from rfl] at hd
    have hdw := List.mem_singleton.mp hd
    subst hdw
    exact ⟨["work"], rfl⟩
  have hiff := (((directory_check_spec wTool wResolve "/etc" ["etc"]).1
    (by decide) (by decide)).1 (by decide) hall).1
  apply hiff.mpr
  intro d rd hd hres
  rw [show wTool.allowed_directories = ["/work"] from rfl] at hd
  have hdw := List.mem_singleton.mp hd
  subst hdw
  have h3 : (Except.ok ["work"] : Except String (List String)) = Except.ok rd := hres
  rw [← Except.ok.inj h3]
  decide

/-- Claim C9: `add_allowed_command`, `remove_allowed_command` and
    `add_blocked_pattern` are idempotent set-like mutations — adding an
    element already present or removing one already absent leaves the
    policy unchanged, and adding twice equals adding once — and after
    `add_allowed_command "foo"` the command `foo --bar` no longer fails
    the allow-list check. -/
theorem policy_mutations_idempotent : ∀ (t : ExecTool) (c p : String),
    (c ∈ t.allowed_commands → t.add_allowed_command c = t) ∧
    (c ∉ t.allowed_commands → t.remove_allowed_command c = t) ∧
    (p ∈ t.blocked_patterns → t.add_blocked_pattern p = t) ∧
    (t.add_allowed_command c).add_allowed_command c = t.add_allowed_command c ∧
    (t.add_allowed_command "foo").check_allowed_command
      (parseCommand "foo --bar").1 = none := by
  intro t c p
  refine ⟨?_, ?_, ?_, ?_, ?_⟩
  · intro h
    unfold ExecTool.add_allowed_command
    rw [if_pos h]
  · intro h
    unfold ExecTool.remove_allowed_command
    rw [if_neg h]
  · intro h
    unfold ExecTool.add_blocked_pattern
    rw [if_pos h]
  · show (if c ∈ (t.add_allowed_command c).allowed_commands
        then t.add_allowed_command c
        else { t.add_allowed_command c with allowed_commands :=
          (t.add_allowed_command c).allowed_commands ++ [c] }) =
      t.add_allowed_command c
    rw [if_pos (mem_add_allowed t c)]
  · have hp : (parseCommand "foo --bar").1 = "foo" := by decide
    rw [hp]
    unfold ExecTool.check_allowed_command
    by_cases hreq : (t.add_allowed_command "foo").require_allowlist = false
    · rw [if_pos hreq]
    · rw [if_neg hreq, (by decide : pathName "foo" = "foo"),
        if_pos (mem_add_allowed t "foo")]

/-- Witness for C9 on the default policy: adding the present `ls`,
    removing the absent `frobnicate`, and re-adding the present blocked
    pattern `sudo ` are all no-ops. -/
theorem policy_mutations_idempotent_witness :
    ("ls" ∈ defaultTool.allowed_commands ∧
      defaultTool.add_allowed_command "ls" = defaultTool) ∧
    ("frobnicate" ∉ defaultTool.allowed_commands ∧
      defaultTool.remove_allowed_command "frobnicate" = defaultTool) ∧
    ("sudo " ∈ defaultTool.blocked_patterns ∧
      defaultTool.add_blocked_pattern "sudo " = defaultTool) :=
  ⟨⟨by decide, (policy_mutations_idempotent defaultTool "ls" "sudo ").1
      (by decide)⟩,
   ⟨by decide, (policy_mutations_idempotent defaultTool "frobnicate" "sudo ").2.1
      (by decide)⟩,
   ⟨by decide, (policy_mutations_idempotent defaultTool "ls" "sudo ").2.2.1
      (by decide)⟩⟩

